import Mathlib

/-!
Verification of `src/2DT/checkerDT.c`, the structural-invariant checker for
a directory tree (DT).  The checker consumes two external collaborator
interfaces (Path and Node); those are embedded as an abstract environment,
while the checker functions themselves are translated line by line from
`checkerDT.c`.
-/

set_option autoImplicit false

/-- Modelled from the spec: a Path is an ordered sequence of string
components; the Path module itself is an external collaborator that is not
part of the source under audit. -/
abbrev Path_T := List String

/-- Modelled from the spec: `Path_getDepth` is the number of components. -/
def Path_getDepth (p : Path_T) : Nat := p.length

/-- Modelled from the spec: shared-prefix depth is the number of leading
components two paths have in common. -/
def Path_getSharedPrefixDepth : Path_T → Path_T → Nat
  | a :: as, b :: bs => if a = b then Path_getSharedPrefixDepth as bs + 1 else 0
  | _, _ => 0

/-- Modelled from the spec: lexicographic comparison of two strings as
character sequences; negative / zero / positive like `strcmp`. -/
def cmpChars : List Char → List Char → Int
  | [], [] => 0
  | [], _ :: _ => -1
  | _ :: _, [] => 1
  | a :: as, b :: bs =>
    if a.toNat < b.toNat then -1
    else if b.toNat < a.toNat then 1
    else cmpChars as bs

/-- Lexicographic comparison of two path components. -/
def strCmp (a b : String) : Int := cmpChars a.data b.data

/-- Modelled from the spec: lexicographic comparison over the ordered
sequence of components; negative / zero / positive like `Path_comparePath`. -/
def Path_comparePath : Path_T → Path_T → Int
  | [], [] => 0
  | [], _ :: _ => -1
  | _ :: _, [] => 1
  | a :: as, b :: bs =>
    if strCmp a b < 0 then -1
    else if 0 < strCmp a b then 1
    else Path_comparePath as bs

/-- Modelled from the spec: human-readable rendering of a path. -/
def Path_getPathname (p : Path_T) : String := String.intercalate "/" p

/-- A node reference (a non-NULL `Node_T` pointer is modelled as an id). -/
abbrev Node_T := Nat

/-- Modelled from the spec: the Node interface, an external collaborator the
checker explicitly does not trust.  `getChild n i` models `Node_getChild`:
`none` is a non-SUCCESS status, `some c` is SUCCESS with the out parameter
set to `c` (which an inconsistent implementation could set to NULL, i.e.
`none`). -/
structure DTEnv where
  getPath : Node_T → Path_T
  getParent : Node_T → Option Node_T
  getNumChildren : Node_T → Nat
  getChild : Node_T → Nat → Option (Option Node_T)

/-- The value left in the out parameter of `Node_getChild` after a call:
the child on SUCCESS, NULL on failure (the node implementation sets the out
parameter to NULL before returning a failure status). -/
def childOut (env : DTEnv) (n : Node_T) (i : Nat) : Option Node_T :=
  (env.getChild n i).join

/-- `2 ^ 64`: the modulus of `size_t` arithmetic in the source. -/
def W64 : Nat := 2 ^ 64

/-- `size_t` subtraction by one, as in `Path_getDepth(oPNPath) - 1`:
wraps to `2 ^ 64 - 1` when the depth is `0`. -/
def subOne64 (n : Nat) : Nat := (n + (W64 - 1)) % W64

/-- ASCII apostrophe, used inside diagnostic strings. -/
def apos : String := String.singleton (Char.ofNat 39)

/-- Diagnostic of `CheckerDT_ancestorTreeCheck` for a prefix-depth mismatch. -/
def msgAncestor (pN pHN : Path_T) : String :=
  "Largest shared prefix depth of an Ancestor and Child is not the depth of the ancestor: ("
    ++ Path_getPathname pN ++ ") (" ++ Path_getPathname pHN ++ ")\n"

/-- Diagnostic of `CheckerDT_ancestorTreeCheck` for a failed child retrieval
(the two C string literals concatenate without a space). -/
def msgMoreChildrenAnc : String :=
  "getNumChildren claims more childrenthan getChild returns\n"

/-- Diagnostic for a NULL node passed to `CheckerDT_Node_isValid`. -/
def msgNullNode : String := "A node is a NULL pointer\n"

/-- Diagnostic for a parent/child path mismatch (invariant I3). -/
def msgPC (pP pN : Path_T) : String :=
  "P-C nodes don" ++ apos ++ "t have P-C paths: ("
    ++ Path_getPathname pP ++ ") (" ++ Path_getPathname pN ++ ")\n"

/-- Diagnostic for children out of lexicographic order (invariant I4). -/
def msgLex : String := "Children not stored lexicographically\n"

/-- Diagnostic for duplicate children (invariant I5), citing the owner. -/
def msgDup (p : Path_T) : String :=
  "Duplicate children for node: (" ++ Path_getPathname p ++ ")\n"

/-- Diagnostic of `CheckerDT_treeCheck` for a failed child retrieval
(the two C string literals concatenate without a space). -/
def msgMoreChildrenTree : String :=
  "getNumChildren claims more children thangetChild returns\n"

/-- Diagnostic of `CheckerDT_treeCheck` for a NULL child at a valid index
(the two C string literals concatenate without a space). -/
def msgNullChildTree : String :=
  "getChild returned NULL for an index thatgetNumChildren claimed was valid.\n"

/-- Diagnostic of `CheckerDT_treeCheck` for a wrong parent back-reference. -/
def msgBadParentTree : String :=
  "The parent of the child of a node (getParent of getChild of the node) didn"
    ++ apos ++ "t return the original node.\n"

/-- Diagnostic of `CheckerDT_isValid`: not initialized but nonzero count. -/
def msgNotInitCount : String := "Not initialized, but count is not 0\n"

/-- Diagnostic of `CheckerDT_isValid`: not initialized but non-NULL root. -/
def msgNotInitRoot : String := "Not initialized, but root is not NULL\n"

/-- Diagnostic of `CheckerDT_isValid`: count does not match actual size. -/
def msgCountMismatch : String :=
  "Given ulCount does not match actual number of nodes in DT.\n"

/-- A checker result: `none` models a run with no defined outcome in the C
source (fuel exhaustion of the embedding, or a NULL-pointer dereference on
an inconsistent environment); `some (b, ms)` is verdict `b` with the list
`ms` of diagnostics printed to stderr, in order. -/
abbrev ChkResult := Option (Bool × List String)

/-- Sequencing of two checker stages: the C functions run the second block
only when the first one did not already return FALSE. -/
def seqCheck (a b : ChkResult) : ChkResult :=
  match a with
  | some (true, ms) =>
    match b with
    | some (b2, ms2) => some (b2, ms ++ ms2)
    | none => none
  | other => other

/-- A C `for` loop over a list of indices whose body can return FALSE early:
runs `step` on each index in order, stopping at the first failure (or
undefined outcome), accumulating printed diagnostics. -/
def firstFailM (step : Nat → ChkResult) : List Nat → ChkResult
  | [] => some (true, [])
  | i :: rest =>
    match step i with
    | none => none
    | some (false, ms) => some (false, ms)
    | some (true, ms) =>
      match firstFailM step rest with
      | none => none
      | some (b, ms2) => some (b, ms ++ ms2)

/-- `CheckerDT_ancestorTreeCheck` from checkerDT.c lines 22-61: pre-order
traversal of the subtree rooted at the first node, checking every visited
node's path against the fixed higher reference node. -/
def CheckerDT_ancestorTreeCheck (env : DTEnv) :
    Nat → Option Node_T → Node_T → ChkResult
  | 0, _, _ => none
  | _ + 1, none, _ => some (true, [])
  | fuel + 1, some n, ref =>
    if Path_getSharedPrefixDepth (env.getPath ref) (env.getPath n) ≠
        Path_getDepth (env.getPath ref) then
      some (false, [msgAncestor (env.getPath n) (env.getPath ref)])
    else
      firstFailM (fun i =>
          match env.getChild n i with
          | none => some (false, [msgMoreChildrenAnc])
          | some c => CheckerDT_ancestorTreeCheck env fuel c ref)
        (List.range (env.getNumChildren n))

/-- One iteration of the child loop of `CheckerDT_ancestorTreeCheck`. -/
def ancStep (env : DTEnv) (fuel : Nat) (n ref : Node_T) (i : Nat) : ChkResult :=
  match env.getChild n i with
  | none => some (false, [msgMoreChildrenAnc])
  | some c => CheckerDT_ancestorTreeCheck env fuel c ref

/-- The parent/child path check of `CheckerDT_Node_isValid` (lines 83-95),
with the `size_t` subtraction `Path_getDepth(oPNPath) - 1` of the source. -/
def parentCheck (env : DTEnv) (n : Node_T) : ChkResult :=
  match env.getParent n with
  | none => some (true, [])
  | some p =>
    if Path_getSharedPrefixDepth (env.getPath n) (env.getPath p) ≠
          subOne64 (Path_getDepth (env.getPath n))
        ∨ Path_getSharedPrefixDepth (env.getPath n) (env.getPath p) ≠
          Path_getDepth (env.getPath p) then
      some (false, [msgPC (env.getPath p) (env.getPath n)])
    else
      some (true, [])

/-- One iteration of the lexicographic-order loop of
`CheckerDT_Node_isValid` (lines 98-108): fetches children `i-1` and `i`
ignoring the status, and compares their paths. -/
def lexStep (env : DTEnv) (n : Node_T) (i : Nat) : ChkResult :=
  match childOut env n (i - 1), childOut env n i with
  | some prev, some curr =>
    if Path_comparePath (env.getPath prev) (env.getPath curr) > 0 then
      some (false, [msgLex])
    else
      some (true, [])
  | _, _ => none

/-- The lexicographic-order check of `CheckerDT_Node_isValid`: the loop
`for (i = 1; i < Node_getNumChildren(oNNode); i++)`. -/
def lexCheck (env : DTEnv) (n : Node_T) : ChkResult :=
  firstFailM (lexStep env n) (List.range' 1 (env.getNumChildren n - 1))

/-- One iteration of the inner duplicate loop of `CheckerDT_Node_isValid`
(lines 112-126): the condition `i != j && Path_comparePath(...) == 0`
short-circuits, so the paths are only dereferenced when `i ≠ j`. -/
def dupInnerStep (env : DTEnv) (n : Node_T) (i j : Nat) : ChkResult :=
  if i = j then some (true, [])
  else
    match childOut env n i, childOut env n j with
    | some c1, some c2 =>
      if Path_comparePath (env.getPath c1) (env.getPath c2) = 0 then
        some (false, [msgDup (env.getPath n)])
      else
        some (true, [])
    | _, _ => none

/-- The duplicate-children check of `CheckerDT_Node_isValid`: all ordered
pairs of child indices. -/
def dupCheck (env : DTEnv) (n : Node_T) : ChkResult :=
  firstFailM
    (fun i => firstFailM (dupInnerStep env n i)
        (List.range (env.getNumChildren n)))
    (List.range (env.getNumChildren n))

/-- `CheckerDT_Node_isValid` from checkerDT.c lines 64-135: NULL check,
then the parent/child path check, the sibling order check, the sibling
uniqueness check, and finally the ancestor consistency traversal with the
node itself as the higher reference. -/
def CheckerDT_Node_isValid (env : DTEnv) (fuel : Nat)
    (node : Option Node_T) : ChkResult :=
  match node with
  | none => some (false, [msgNullNode])
  | some n =>
    seqCheck (parentCheck env n)
      (seqCheck (lexCheck env n)
        (seqCheck (dupCheck env n)
          (CheckerDT_ancestorTreeCheck env fuel (some n) n)))

/-- `CheckerDT_treeCheck` from checkerDT.c lines 146-189: pre-order walk
invoking the node validator at every node, then auditing each child index
(retrieval status, non-NULL child, parent back-reference) before recursing. -/
def CheckerDT_treeCheck (env : DTEnv) : Nat → Option Node_T → ChkResult
  | 0, _ => none
  | _ + 1, none => some (true, [])
  | fuel + 1, some n =>
    seqCheck (CheckerDT_Node_isValid env (fuel + 1) (some n))
      (firstFailM (fun i =>
          match env.getChild n i with
          | none => some (false, [msgMoreChildrenTree])
          | some none => some (false, [msgNullChildTree])
          | some (some c) =>
            if env.getParent c ≠ some n then
              some (false, [msgBadParentTree])
            else
              CheckerDT_treeCheck env fuel (some c))
        (List.range (env.getNumChildren n)))

/-- One iteration of the child loop of `CheckerDT_treeCheck`. -/
def treeStep (env : DTEnv) (fuel : Nat) (n : Node_T) (i : Nat) : ChkResult :=
  match env.getChild n i with
  | none => some (false, [msgMoreChildrenTree])
  | some none => some (false, [msgNullChildTree])
  | some (some c) =>
    if env.getParent c ≠ some n then
      some (false, [msgBadParentTree])
    else
      CheckerDT_treeCheck env fuel (some c)

/-- Sums an option-valued size over a list of child indices, propagating
only the embedding's fuel exhaustion (the C loop has no failure case). -/
def sumSizes (step : Nat → Option Nat) : List Nat → Option Nat
  | [] => some 0
  | i :: rest =>
    match step i, sumSizes step rest with
    | some a, some b => some (a + b)
    | _, _ => none

/-- `CheckerDT_subtreeSize` from checkerDT.c lines 196-216: 0 for NULL,
otherwise 1 plus the sum of the children's subtree sizes; the status of
`Node_getChild` is ignored (a failed retrieval leaves the out parameter
NULL, contributing 0). -/
def CheckerDT_subtreeSize (env : DTEnv) : Nat → Option Node_T → Option Nat
  | 0, _ => none
  | _ + 1, none => some 0
  | fuel + 1, some n =>
    (sumSizes (fun i => CheckerDT_subtreeSize env fuel (childOut env n i))
        (List.range (env.getNumChildren n))).map (fun s => 1 + s)

/-- `CheckerDT_isValid` from checkerDT.c lines 220-244: top-level entry
point checking initialization consistency (I1), the node count (I2), and
then delegating to the tree walk. -/
def CheckerDT_isValid (env : DTEnv) (fuel : Nat) (bInit : Bool)
    (root : Option Node_T) (count : Nat) : ChkResult :=
  if bInit = false ∧ count ≠ 0 then some (false, [msgNotInitCount])
  else if bInit = false ∧ root ≠ none then some (false, [msgNotInitRoot])
  else
    match CheckerDT_subtreeSize env fuel root with
    | none => none
    | some sz =>
      if count ≠ sz then some (false, [msgCountMismatch])
      else CheckerDT_treeCheck env fuel root

/-! ### Concrete environments used as witnesses -/

/-- A well-formed three-node tree: `"root"` with children `"root/a"`,
`"root/b"` in order (the spec's concrete scenario). -/
def env3 : DTEnv where
  getPath n :=
    if n = 0 then ["root"]
    else if n = 1 then ["root", "a"]
    else if n = 2 then ["root", "b"]
    else ["z"]
  getParent n := if n = 1 ∨ n = 2 then some 0 else none
  getNumChildren n := if n = 0 then 2 else 0
  getChild n i := if n = 0 ∧ i < 2 then some (some (i + 1)) else none

/-- The same tree but with the two children stored out of lexicographic
order (`"root/b"` before `"root/a"`). -/
def envLex : DTEnv where
  getPath n :=
    if n = 0 then ["root"]
    else if n = 1 then ["root", "b"]
    else if n = 2 then ["root", "a"]
    else ["z"]
  getParent n := if n = 1 ∨ n = 2 then some 0 else none
  getNumChildren n := if n = 0 then 2 else 0
  getChild n i := if n = 0 ∧ i < 2 then some (some (i + 1)) else none

/-- The same tree but with both children labelled `"root/a"` (duplicates). -/
def envDup : DTEnv where
  getPath n :=
    if n = 0 then ["root"]
    else if n = 1 then ["root", "a"]
    else if n = 2 then ["root", "a"]
    else ["z"]
  getParent n := if n = 1 ∨ n = 2 then some 0 else none
  getNumChildren n := if n = 0 then 2 else 0
  getChild n i := if n = 0 ∧ i < 2 then some (some (i + 1)) else none

/-- A node whose path skips a level relative to its parent:
node 1 is labelled `"root/a/b"` but its parent is `"root"`. -/
def envSkip : DTEnv where
  getPath n := if n = 0 then ["root"] else ["root", "a", "b"]
  getParent n := if n = 1 then some 0 else none
  getNumChildren n := if n = 0 then 1 else 0
  getChild n i := if n = 0 ∧ i = 0 then some (some 1) else none

/-- An environment whose node interface claims one child of the root but
fails to deliver it: `getNumChildren 0 = 1` yet `getChild 0 0` is a
non-SUCCESS status. -/
def envClaim : DTEnv where
  getPath _ := ["root"]
  getParent _ := none
  getNumChildren n := if n = 0 then 1 else 0
  getChild _ _ := none

/-- A two-node environment where the child is retrievable but its parent
back-reference does not point back at the root. -/
def envBadBack : DTEnv where
  getPath n := if n = 0 then ["root"] else ["root", "a"]
  getParent _ := none
  getNumChildren n := if n = 0 then 1 else 0
  getChild n i := if n = 0 ∧ i = 0 then some (some 1) else none

/-- A node whose subtree breaks the ancestor prefix invariant: the root
`"x"/"y"` has a child recorded under it that is labelled `"x"/"z"/"w"`. -/
def envAnc : DTEnv where
  getPath n := if n = 0 then ["x", "y"] else ["x", "z", "w"]
  getParent _ := none
  getNumChildren n := if n = 0 then 1 else 0
  getChild n i := if n = 0 ∧ i = 0 then some (some 1) else none

/-! ### Helper lemmas about the loop combinators -/

theorem seqCheck_true (b : ChkResult) :
    seqCheck (some (true, ([] : List String))) b = b := by
  cases b with
  | none => rfl
  | some x => cases x with | mk b2 ms2 => simp [seqCheck]

theorem seqCheck_fail (ms : List String) (b : ChkResult) :
    seqCheck (some (false, ms)) b = some (false, ms) := rfl

theorem firstFailM_all_true (step : Nat → ChkResult) (l : List Nat)
    (h : ∀ i ∈ l, step i = some (true, [])) :
    firstFailM step l = some (true, []) := by
  induction l with
  | nil => rfl
  | cons i rest ih =>
    have hi : step i = some (true, []) := h i (List.mem_cons_self i rest)
    have hr : firstFailM step rest = some (true, []) :=
      ih (fun j hj => h j (List.mem_cons_of_mem i hj))
    simp [firstFailM, hi, hr]

theorem firstFailM_mem_true (step : Nat → ChkResult) (l : List Nat)
    (ms : List String) (h : firstFailM step l = some (true, ms)) :
    ∀ i ∈ l, ∃ ms', step i = some (true, ms') := by
  induction l generalizing ms with
  | nil => intro i hi; cases hi
  | cons j rest ih =>
    intro i hi
    rcases List.mem_cons.mp hi with hij | hmem
    · subst hij
      cases hs : step i with
      | none => rw [firstFailM, hs] at h; cases h
      | some r =>
        cases r with
        | mk b msj =>
          cases b with
          | false =>
            rw [firstFailM, hs] at h
            simp at h
          | true => exact ⟨msj, rfl⟩
    · cases hs : step j with
      | none => rw [firstFailM, hs] at h; cases h
      | some r =>
        cases r with
        | mk b msj =>
          cases b with
          | false =>
            rw [firstFailM, hs] at h
            simp at h
          | true =>
            rw [firstFailM, hs] at h
            cases hr : firstFailM step rest with
            | none => rw [hr] at h; cases h
            | some r2 =>
              cases r2 with
              | mk b2 ms2 =>
                rw [hr] at h
                cases b2 with
                | false => simp at h
                | true => exact ih ms2 hr i hmem

theorem firstFailM_split (step : Nat → ChkResult) (l1 l2 : List Nat)
    (i : Nat) (ms : List String)
    (h1 : ∀ j ∈ l1, step j = some (true, []))
    (h2 : step i = some (false, ms)) :
    firstFailM step (l1 ++ i :: l2) = some (false, ms) := by
  induction l1 with
  | nil => simp [firstFailM, h2]
  | cons j rest ih =>
    have hj : step j = some (true, []) := h1 j (List.mem_cons_self j rest)
    have hr := ih (fun k hk => h1 k (List.mem_cons_of_mem j hk))
    simp [firstFailM, hj, hr]

theorem firstFailM_two_valued (step : Nat → ChkResult) (l : List Nat)
    (M : List String)
    (h : ∀ i ∈ l, step i = some (true, []) ∨ step i = some (false, M)) :
    firstFailM step l = some (true, []) ∨ firstFailM step l = some (false, M) := by
  induction l with
  | nil => left; rfl
  | cons i rest ih =>
    rcases h i (List.mem_cons_self i rest) with hi | hi
    · rcases ih (fun j hj => h j (List.mem_cons_of_mem i hj)) with hr | hr
      · left; simp [firstFailM, hi, hr]
      · right; simp [firstFailM, hi, hr]
    · right; simp [firstFailM, hi]

theorem firstFailM_exists_fail (step : Nat → ChkResult) (l : List Nat)
    (M : List String)
    (h : ∀ i ∈ l, step i = some (true, []) ∨ step i = some (false, M))
    (hex : ∃ i ∈ l, step i = some (false, M)) :
    firstFailM step l = some (false, M) := by
  induction l with
  | nil => rcases hex with ⟨i, hi, _⟩; cases hi
  | cons i rest ih =>
    rcases h i (List.mem_cons_self i rest) with hi | hi
    · rcases hex with ⟨k, hk, hkf⟩
      rcases List.mem_cons.mp hk with hki | hkm
      · subst hki; rw [hi] at hkf; simp at hkf
      · have hr := ih (fun j hj => h j (List.mem_cons_of_mem i hj)) ⟨k, hkm, hkf⟩
        simp [firstFailM, hi, hr]
    · simp [firstFailM, hi]

/-! ### Helper lemmas about paths and index ranges -/

theorem sharedPrefix_le_left (p q : Path_T) :
    Path_getSharedPrefixDepth p q ≤ p.length := by
  induction p generalizing q with
  | nil => cases q <;> simp [Path_getSharedPrefixDepth]
  | cons a as ih =>
    cases q with
    | nil => simp [Path_getSharedPrefixDepth]
    | cons b bs =>
      by_cases hab : a = b
      · simp only [Path_getSharedPrefixDepth, if_pos hab, List.length_cons]
        exact Nat.succ_le_succ (ih bs)
      · simp [Path_getSharedPrefixDepth, hab]

theorem range_split (i k : Nat) (h : i < k) :
    List.range k = List.range i ++ i :: List.range' (i + 1) (k - i - 1) := by
  rw [List.range_eq_range', List.range_eq_range']
  have h1 := List.range'_append 0 i (k - i) 1
  have h2 : 0 + 1 * i = i := by omega
  have h3 : k - i + i = k := by omega
  have h4 : k - i = (k - i - 1) + 1 := by omega
  rw [h2, h3, h4, List.range'_succ] at h1
  exact h1.symm

theorem range'_split (s len m : Nat) (hs : s ≤ m) (hm : m < s + len) :
    List.range' s len = List.range' s (m - s) ++ m :: List.range' (m + 1) (s + len - m - 1) := by
  have h1 := List.range'_append s (m - s) (len - (m - s)) 1
  have h2 : s + 1 * (m - s) = m := by omega
  have h3 : len - (m - s) + (m - s) = len := by omega
  have h4 : len - (m - s) = (s + len - m - 1) + 1 := by omega
  rw [h2, h3, h4, List.range'_succ] at h1
  exact h1.symm

/-! ### Arithmetic helpers for the `size_t` subtraction -/

theorem subOne64_pos (n : Nat) (h1 : 1 ≤ n) (h2 : n ≤ W64) :
    subOne64 n = n - 1 := by
  have h64 : W64 = 18446744073709551616 := by norm_num [W64]
  unfold subOne64
  have he : n + (W64 - 1) = (n - 1) + W64 := by omega
  rw [he, Nat.add_mod_right]
  exact Nat.mod_eq_of_lt (by omega)

theorem subOne64_zero : subOne64 0 = W64 - 1 := by
  unfold subOne64
  exact Nat.mod_eq_of_lt (by norm_num [W64])

/-! ### Summation helper for the subtree size -/

theorem sumSizes_eq_mapM (step : Nat → Option Nat) (l : List Nat) :
    sumSizes step l = (l.mapM step).map List.sum := by
  rw [← List.mapM'_eq_mapM]
  induction l with
  | nil => rfl
  | cons i rest ih =>
    cases hs : step i with
    | none => simp [sumSizes, hs, List.mapM']
    | some a =>
      cases hm : List.mapM' step rest with
      | none =>
        have hr : sumSizes step rest = none := by rw [ih, hm]; rfl
        simp [sumSizes, hs, hr, List.mapM', hm]
      | some as =>
        have hr : sumSizes step rest = some as.sum := by rw [ih, hm]; rfl
        simp [sumSizes, hs, hr, List.mapM', hm]

/-! ### Claims -/

/-- C1: `CheckerDT_isValid` returns false whenever the claimed count differs
from the node count computed by `CheckerDT_subtreeSize`, regardless of the
initialized flag; and `CheckerDT_subtreeSize` returns 0 for a NULL input,
returns 1 plus the sum of its children's subtree sizes otherwise, and has
no failure cases of its own: it never consults the retrieval status of
`Node_getChild` (its result depends only on the out-parameter values and
the child counts). -/
theorem claim_C1 :
    (∀ (env : DTEnv) (fuel : Nat) (bInit : Bool) (root : Option Node_T)
        (count sz : Nat),
      CheckerDT_subtreeSize env fuel root = some sz → count ≠ sz →
      ∃ ms, CheckerDT_isValid env fuel bInit root count = some (false, ms))
    ∧ (∀ (env : DTEnv) (fuel : Nat),
      CheckerDT_subtreeSize env (fuel + 1) none = some 0)
    ∧ (∀ (env : DTEnv) (fuel : Nat) (n : Node_T),
      CheckerDT_subtreeSize env (fuel + 1) (some n) =
        ((List.range (env.getNumChildren n)).mapM
            (fun i => CheckerDT_subtreeSize env fuel (childOut env n i))).map
          (fun l => 1 + l.sum))
    ∧ (∀ (env env' : DTEnv),
      (∀ n i, childOut env n i = childOut env' n i) →
      (∀ n, env.getNumChildren n = env'.getNumChildren n) →
      ∀ (fuel : Nat) (root : Option Node_T),
        CheckerDT_subtreeSize env fuel root =
          CheckerDT_subtreeSize env' fuel root) := by
  refine ⟨?_, ?_, ?_, ?_⟩
  · intro env fuel bInit root count sz hsz hne
    cases bInit with
    | true =>
      refine ⟨[msgCountMismatch], ?_⟩
      simp [CheckerDT_isValid, hsz, hne]
    | false =>
      by_cases hc : count = 0
      · subst hc
        cases root with
        | none =>
          cases fuel with
          | zero => simp [CheckerDT_subtreeSize] at hsz
          | succ f =>
            simp [CheckerDT_subtreeSize] at hsz
            omega
        | some r =>
          exact ⟨[msgNotInitRoot], by simp [CheckerDT_isValid]⟩
      · exact ⟨[msgNotInitCount], by simp [CheckerDT_isValid, hc]⟩
  · intro env fuel; rfl
  · intro env fuel n
    show (sumSizes _ _).map _ = _
    rw [sumSizes_eq_mapM, Option.map_map]
    rfl
  · intro env env' hco hnum fuel
    induction fuel with
    | zero => intro root; rfl
    | succ f ih =>
      intro root
      cases root with
      | none => rfl
      | some n =>
        have hstep : (fun i => CheckerDT_subtreeSize env f (childOut env n i)) =
            (fun i => CheckerDT_subtreeSize env' f (childOut env' n i)) :=
          funext fun i => by rw [hco, ih]
        show (sumSizes _ _).map _ = (sumSizes _ _).map _
        rw [hstep, hnum]

/-- Witness for C1 on the concrete three-node tree with a wrong count. -/
theorem claim_C1_witness :
    ∃ ms, CheckerDT_isValid env3 3 true (some 0) 2 = some (false, ms) :=
  claim_C1.1 env3 3 true (some 0) 2 3 (by decide) (by decide)

/-- C9: `CheckerDT_Node_isValid` applied to a NULL node reference returns
false with the null-node diagnostic, not vacuous success. -/
theorem claim_C9 :
    ∀ (env : DTEnv) (fuel : Nat),
      CheckerDT_Node_isValid env fuel none = some (false, [msgNullNode]) :=
  fun _ _ => rfl

/-- C10: an initialized tree with a NULL root and count 0 passes all
checks; the checker never requires an initialized tree to have a root. -/
theorem claim_C10 :
    ∀ (env : DTEnv) (fuel : Nat),
      CheckerDT_isValid env (fuel + 1) true none 0 = some (true, []) := by
  intro env fuel
  simp [CheckerDT_isValid, CheckerDT_subtreeSize, CheckerDT_treeCheck]

/-- C5: with `initialized = false`, `CheckerDT_isValid` fails whenever the
count is nonzero or the root is not NULL, with a distinct diagnostic per
condition, and passes (overall verdict true) when the count is 0 and the
root is NULL. -/
theorem claim_C5 :
    (∀ (env : DTEnv) (fuel : Nat) (root : Option Node_T) (count : Nat),
      count ≠ 0 →
      CheckerDT_isValid env fuel false root count =
        some (false, [msgNotInitCount]))
    ∧ (∀ (env : DTEnv) (fuel : Nat) (root : Option Node_T),
      root ≠ none →
      CheckerDT_isValid env fuel false root 0 =
        some (false, [msgNotInitRoot]))
    ∧ msgNotInitCount ≠ msgNotInitRoot
    ∧ (∀ (env : DTEnv) (fuel : Nat),
      CheckerDT_isValid env (fuel + 1) false none 0 = some (true, [])) := by
  refine ⟨?_, ?_, ?_, ?_⟩
  · intro env fuel root count hc
    simp [CheckerDT_isValid, hc]
  · intro env fuel root hr
    simp [CheckerDT_isValid, hr]
  · decide
  · intro env fuel
    simp [CheckerDT_isValid, CheckerDT_subtreeSize, CheckerDT_treeCheck]

/-- Witness for C5: a nonzero count on an uninitialized tree fails. -/
theorem claim_C5_witness :
    CheckerDT_isValid env3 1 false none 5 = some (false, [msgNotInitCount]) :=
  claim_C5.1 env3 1 none 5 (by decide)

/-- C2: for a node with a non-NULL parent, `CheckerDT_Node_isValid` returns
false unless the shared-prefix depth equals both the node's depth minus one
and the parent's depth (the depth bound reflects that path depths are
`size_t` values in the source). -/
theorem claim_C2 :
    ∀ (env : DTEnv) (fuel : Nat) (n p : Node_T),
      env.getParent n = some p →
      Path_getDepth (env.getPath n) ≤ W64 →
      ¬ (Path_getSharedPrefixDepth (env.getPath n) (env.getPath p) =
            Path_getDepth (env.getPath n) - 1
          ∧ Path_getSharedPrefixDepth (env.getPath n) (env.getPath p) =
            Path_getDepth (env.getPath p)) →
      CheckerDT_Node_isValid env fuel (some n) =
        some (false, [msgPC (env.getPath p) (env.getPath n)]) := by
  intro env fuel n p hp hd hne
  have hsle : Path_getSharedPrefixDepth (env.getPath n) (env.getPath p) ≤
      Path_getDepth (env.getPath n) := sharedPrefix_le_left _ _
  have hcond : Path_getSharedPrefixDepth (env.getPath n) (env.getPath p) ≠
        subOne64 (Path_getDepth (env.getPath n))
      ∨ Path_getSharedPrefixDepth (env.getPath n) (env.getPath p) ≠
        Path_getDepth (env.getPath p) := by
    by_cases h1 : Path_getSharedPrefixDepth (env.getPath n) (env.getPath p) =
        Path_getDepth (env.getPath p)
    · left
      by_cases h0 : Path_getDepth (env.getPath n) = 0
      · rw [h0, subOne64_zero]
        have h64 : W64 = 18446744073709551616 := by norm_num [W64]
        omega
      · rw [subOne64_pos _ (by omega) hd]
        intro heq
        exact hne ⟨heq, h1⟩
    · right; exact h1
  have hpar : parentCheck env n =
      some (false, [msgPC (env.getPath p) (env.getPath n)]) := by
    unfold parentCheck
    rw [hp]
    exact if_pos hcond
  show seqCheck (parentCheck env n) _ = _
  rw [hpar, seqCheck_fail]

/-- Witness for C2: node 1 of `envSkip` is labelled `"root/a/b"` but its
parent is `"root"`, so its depth is two more than the parent's. -/
theorem claim_C2_witness :
    CheckerDT_Node_isValid envSkip 2 (some 1) =
      some (false, [msgPC (envSkip.getPath 0) (envSkip.getPath 1)]) :=
  claim_C2 envSkip 2 1 0 (by decide) (by norm_num [W64, Path_getDepth, envSkip])
    (by decide)

theorem mem_range'_iff (s n j : Nat) :
    j ∈ List.range' s n ↔ s ≤ j ∧ j < s + n := by
  rw [List.mem_range']
  constructor
  · rintro ⟨i, hi, rfl⟩; omega
  · rintro ⟨h1, h2⟩; exact ⟨j - s, by omega, by omega⟩

/-- C6: `CheckerDT_Node_isValid` walks adjacent sibling pairs in index
order and returns false with the lexicographic-order diagnostic at the
first out-of-order pair; nothing past that pair is constrained, so the
verdict is reached without examining later pairs. -/
theorem claim_C6 :
    ∀ (env : DTEnv) (fuel : Nat) (n m : Nat),
      parentCheck env n = some (true, []) →
      1 ≤ m → m < env.getNumChildren n →
      (∀ i, 1 ≤ i → i < m → lexStep env n i = some (true, [])) →
      (∃ prev curr, childOut env n (m - 1) = some prev ∧
        childOut env n m = some curr ∧
        Path_comparePath (env.getPath prev) (env.getPath curr) > 0) →
      CheckerDT_Node_isValid env fuel (some n) = some (false, [msgLex]) := by
  intro env fuel n m hpar hm1 hmk hpre hfail
  have hstepm : lexStep env n m = some (false, [msgLex]) := by
    rcases hfail with ⟨prev, curr, h1, h2, h3⟩
    simp [lexStep, h1, h2, h3]
  have hlex : lexCheck env n = some (false, [msgLex]) := by
    unfold lexCheck
    rw [range'_split 1 (env.getNumChildren n - 1) m hm1 (by omega)]
    apply firstFailM_split
    · intro j hj
      have hj' := (mem_range'_iff 1 (m - 1) j).mp hj
      exact hpre j hj'.1 (by omega)
    · exact hstepm
  show seqCheck (parentCheck env n) _ = _
  rw [hpar, seqCheck_true, hlex, seqCheck_fail]

/-- Witness for C6: `envLex` stores `"root/b"` before `"root/a"`. -/
theorem claim_C6_witness :
    CheckerDT_Node_isValid envLex 3 (some 0) = some (false, [msgLex]) :=
  claim_C6 envLex 3 0 1 (by decide) (by decide) (by decide)
    (by intro i h1 h2; omega) ⟨1, 2, by decide, by decide, by decide⟩

/-- C7: `CheckerDT_Node_isValid` returns false with the duplicate
diagnostic citing the node's own path whenever two distinct child indices
hold children with equal paths (all children being retrievable), and the
duplicate check passes when no two distinct children compare equal. -/
theorem claim_C7 :
    (∀ (env : DTEnv) (fuel : Nat) (n : Node_T),
      parentCheck env n = some (true, []) →
      lexCheck env n = some (true, []) →
      (∀ i, i < env.getNumChildren n → ∃ c, childOut env n i = some c) →
      (∃ i j ci cj, i < env.getNumChildren n ∧ j < env.getNumChildren n ∧
        i ≠ j ∧ childOut env n i = some ci ∧ childOut env n j = some cj ∧
        Path_comparePath (env.getPath ci) (env.getPath cj) = 0) →
      CheckerDT_Node_isValid env fuel (some n) =
        some (false, [msgDup (env.getPath n)]))
    ∧ (∀ (env : DTEnv) (n : Node_T),
      (∀ i, i < env.getNumChildren n → ∃ c, childOut env n i = some c) →
      (∀ i j ci cj, i < env.getNumChildren n → j < env.getNumChildren n →
        i ≠ j → childOut env n i = some ci → childOut env n j = some cj →
        Path_comparePath (env.getPath ci) (env.getPath cj) ≠ 0) →
      dupCheck env n = some (true, [])) := by
  constructor
  · intro env fuel n hpar hlex hret hex
    have hstep2 : ∀ i, i < env.getNumChildren n →
        ∀ j ∈ List.range (env.getNumChildren n),
          dupInnerStep env n i j = some (true, []) ∨
          dupInnerStep env n i j = some (false, [msgDup (env.getPath n)]) := by
      intro i hi j hj
      have hj' : j < env.getNumChildren n := List.mem_range.mp hj
      by_cases hij : i = j
      · left; simp [dupInnerStep, hij]
      · rcases hret i hi with ⟨ci, hci⟩
        rcases hret j hj' with ⟨cj, hcj⟩
        by_cases hc : Path_comparePath (env.getPath ci) (env.getPath cj) = 0
        · right; simp [dupInnerStep, hij, hci, hcj, hc]
        · left; simp [dupInnerStep, hij, hci, hcj, hc]
    have houter2 : ∀ i ∈ List.range (env.getNumChildren n),
        firstFailM (dupInnerStep env n i) (List.range (env.getNumChildren n)) =
          some (true, []) ∨
        firstFailM (dupInnerStep env n i) (List.range (env.getNumChildren n)) =
          some (false, [msgDup (env.getPath n)]) :=
      fun i hi => firstFailM_two_valued _ _ _ (hstep2 i (List.mem_range.mp hi))
    rcases hex with ⟨i, j, ci, cj, hi, hj, hij, hci, hcj, hc⟩
    have hinner : firstFailM (dupInnerStep env n i)
        (List.range (env.getNumChildren n)) =
        some (false, [msgDup (env.getPath n)]) := by
      apply firstFailM_exists_fail _ _ _ (hstep2 i hi)
      exact ⟨j, List.mem_range.mpr hj, by simp [dupInnerStep, hij, hci, hcj, hc]⟩
    have hdup : dupCheck env n = some (false, [msgDup (env.getPath n)]) := by
      unfold dupCheck
      exact firstFailM_exists_fail _ _ _ houter2 ⟨i, List.mem_range.mpr hi, hinner⟩
    show seqCheck (parentCheck env n) _ = _
    rw [hpar, seqCheck_true, hlex, seqCheck_true, hdup, seqCheck_fail]
  · intro env n hret hnodup
    unfold dupCheck
    apply firstFailM_all_true
    intro i hi
    apply firstFailM_all_true
    intro j hj
    have hi' := List.mem_range.mp hi
    have hj' := List.mem_range.mp hj
    by_cases hij : i = j
    · simp [dupInnerStep, hij]
    · rcases hret i hi' with ⟨ci, hci⟩
      rcases hret j hj' with ⟨cj, hcj⟩
      have hc := hnodup i j ci cj hi' hj' hij hci hcj
      simp [dupInnerStep, hij, hci, hcj, hc]

/-- Witness for C7: both children of `envDup` carry the path `"root/a"`. -/
theorem claim_C7_witness :
    CheckerDT_Node_isValid envDup 3 (some 0) =
      some (false, [msgDup (envDup.getPath 0)]) :=
  claim_C7.1 envDup 3 0 (by decide) (by decide)
    (by
      intro i hi
      have hk : envDup.getNumChildren 0 = 2 := rfl
      rw [hk] at hi
      match i, hi with
      | 0, _ => exact ⟨1, rfl⟩
      | 1, _ => exact ⟨2, rfl⟩)
    ⟨0, 1, 1, 2, by decide, by decide, by decide, rfl, rfl, by decide⟩

/-- C4: when the local checks pass, `CheckerDT_Node_isValid` delegates to
`CheckerDT_ancestorTreeCheck` with the node itself as the higher reference;
a visited node whose shared-prefix depth with the reference differs from
the reference's depth makes the traversal return false immediately with
the ancestor diagnostic; and a true verdict requires every believed child
subtree to have been retrieved and checked true, so any failure below
propagates up through every recursive frame. -/
theorem claim_C4 :
    (∀ (env : DTEnv) (fuel : Nat) (n : Node_T),
      parentCheck env n = some (true, []) →
      lexCheck env n = some (true, []) →
      dupCheck env n = some (true, []) →
      CheckerDT_Node_isValid env fuel (some n) =
        CheckerDT_ancestorTreeCheck env fuel (some n) n)
    ∧ (∀ (env : DTEnv) (fuel : Nat) (d ref : Node_T),
      Path_getSharedPrefixDepth (env.getPath ref) (env.getPath d) ≠
        Path_getDepth (env.getPath ref) →
      CheckerDT_ancestorTreeCheck env (fuel + 1) (some d) ref =
        some (false, [msgAncestor (env.getPath d) (env.getPath ref)]))
    ∧ (∀ (env : DTEnv) (fuel : Nat) (n ref : Node_T) (ms : List String),
      CheckerDT_ancestorTreeCheck env (fuel + 1) (some n) ref =
        some (true, ms) →
      ∀ i, i < env.getNumChildren n →
        ∃ c, env.getChild n i = some c ∧
          ∃ ms', CheckerDT_ancestorTreeCheck env fuel c ref =
            some (true, ms')) := by
  refine ⟨?_, ?_, ?_⟩
  · intro env fuel n hpar hlex hdup
    show seqCheck (parentCheck env n) _ = _
    rw [hpar, seqCheck_true, hlex, seqCheck_true, hdup, seqCheck_true]
  · intro env fuel d ref h
    show (if _ then _ else _) = _
    rw [if_pos h]
  · intro env fuel n ref ms h i hi
    have heq : CheckerDT_ancestorTreeCheck env (fuel + 1) (some n) ref =
        if Path_getSharedPrefixDepth (env.getPath ref) (env.getPath n) ≠
            Path_getDepth (env.getPath ref) then
          some (false, [msgAncestor (env.getPath n) (env.getPath ref)])
        else
          firstFailM (ancStep env fuel n ref)
            (List.range (env.getNumChildren n)) := rfl
    rw [heq] at h
    by_cases hc : Path_getSharedPrefixDepth (env.getPath ref) (env.getPath n) ≠
        Path_getDepth (env.getPath ref)
    · rw [if_pos hc] at h; simp at h
    · rw [if_neg hc] at h
      rcases firstFailM_mem_true _ _ _ h i (List.mem_range.mpr hi) with
        ⟨ms', hstep⟩
      unfold ancStep at hstep
      cases hgc : env.getChild n i with
      | none => rw [hgc] at hstep; simp at hstep
      | some c => rw [hgc] at hstep; exact ⟨c, rfl, ms', hstep⟩

/-- Witness for C4: the subtree of `envAnc` contains a node whose path
does not extend the reference's path. -/
theorem claim_C4_witness :
    CheckerDT_ancestorTreeCheck envAnc 2 (some 1) 0 =
      some (false, [msgAncestor (envAnc.getPath 1) (envAnc.getPath 0)]) :=
  claim_C4.2.1 envAnc 1 1 0 (by decide)

/-- C8: `CheckerDT_treeCheck` is vacuously true on a NULL input; at a node
where the node validator passed, each child index is audited in order and
the walk returns false immediately when retrieval fails, when the
retrieved child is NULL, or when the child's parent back-reference is not
the current node. -/
theorem claim_C8 :
    (∀ (env : DTEnv) (fuel : Nat),
      CheckerDT_treeCheck env (fuel + 1) none = some (true, []))
    ∧ (∀ (env : DTEnv) (fuel : Nat) (n : Node_T) (i : Nat),
      (env.getChild n i = none →
        treeStep env fuel n i = some (false, [msgMoreChildrenTree]))
      ∧ (env.getChild n i = some none →
        treeStep env fuel n i = some (false, [msgNullChildTree]))
      ∧ (∀ c, env.getChild n i = some (some c) → env.getParent c ≠ some n →
        treeStep env fuel n i = some (false, [msgBadParentTree])))
    ∧ (∀ (env : DTEnv) (fuel : Nat) (n : Node_T) (i : Nat) (ms : List String),
      CheckerDT_Node_isValid env (fuel + 1) (some n) = some (true, []) →
      i < env.getNumChildren n →
      (∀ j, j < i → treeStep env fuel n j = some (true, [])) →
      treeStep env fuel n i = some (false, ms) →
      CheckerDT_treeCheck env (fuel + 1) (some n) = some (false, ms)) := by
  refine ⟨?_, ?_, ?_⟩
  · intro env fuel; rfl
  · intro env fuel n i
    refine ⟨?_, ?_, ?_⟩
    · intro h; simp [treeStep, h]
    · intro h; simp [treeStep, h]
    · intro c h hp; simp [treeStep, h, hp]
  · intro env fuel n i ms hvalid hi hprev hfail
    have heq : CheckerDT_treeCheck env (fuel + 1) (some n) =
        seqCheck (CheckerDT_Node_isValid env (fuel + 1) (some n))
          (firstFailM (treeStep env fuel n)
            (List.range (env.getNumChildren n))) := rfl
    rw [heq, hvalid, seqCheck_true, range_split i (env.getNumChildren n) hi]
    apply firstFailM_split
    · intro j hj; exact hprev j (List.mem_range.mp hj)
    · exact hfail

/-- Witness for C8: in `envBadBack` the retrieved child's parent
back-reference does not point at the node that reported it. -/
theorem claim_C8_witness :
    CheckerDT_treeCheck envBadBack 3 (some 0) =
      some (false, [msgBadParentTree]) :=
  claim_C8.2.2 envBadBack 2 0 0 [msgBadParentTree] (by decide) (by decide)
    (by intro j hj; omega) (by decide)

/-- C3 counterexample: in `envClaim` the only visited node satisfies the
shared-prefix condition (the root against itself), yet
`CheckerDT_ancestorTreeCheck` returns false because indexed retrieval of
the believed child fails — so its verdict does not depend only on
shared-prefix-depth comparisons. -/
theorem claim_C3_cex :
    Path_getSharedPrefixDepth (envClaim.getPath 0) (envClaim.getPath 0) =
      Path_getDepth (envClaim.getPath 0)
    ∧ envClaim.getNumChildren 0 = 1
    ∧ envClaim.getChild 0 0 = none
    ∧ CheckerDT_ancestorTreeCheck envClaim 2 (some 0) 0 =
      some (false, [msgMoreChildrenAnc]) := by decide

/-- C3 (amended): `CheckerDT_ancestorTreeCheck` does return false when
indexed child retrieval fails at a believed index; it performs no other
part of I7 — a SUCCESS retrieval of a NULL child is treated as an empty
subtree, and the verdict never consults the parent back-reference — and
it recurses only over children already believed to exist. -/
theorem claim_C3 :
    (∀ (env : DTEnv) (fuel : Nat) (n ref : Node_T) (i : Nat),
      Path_getSharedPrefixDepth (env.getPath ref) (env.getPath n) =
        Path_getDepth (env.getPath ref) →
      i < env.getNumChildren n →
      (∀ j, j < i → ancStep env fuel n ref j = some (true, [])) →
      env.getChild n i = none →
      CheckerDT_ancestorTreeCheck env (fuel + 1) (some n) ref =
        some (false, [msgMoreChildrenAnc]))
    ∧ (∀ (env : DTEnv) (fuel : Nat) (n ref : Node_T) (i : Nat),
      env.getChild n i = some none →
      ancStep env (fuel + 1) n ref i = some (true, []))
    ∧ (∀ env env' : DTEnv,
      env.getPath = env'.getPath →
      env.getNumChildren = env'.getNumChildren →
      env.getChild = env'.getChild →
      ∀ (fuel : Nat) (node : Option Node_T) (ref : Node_T),
        CheckerDT_ancestorTreeCheck env fuel node ref =
          CheckerDT_ancestorTreeCheck env' fuel node ref) := by
  refine ⟨?_, ?_, ?_⟩
  · intro env fuel n ref i hpre hi hprev hfail
    have heq : CheckerDT_ancestorTreeCheck env (fuel + 1) (some n) ref =
        if Path_getSharedPrefixDepth (env.getPath ref) (env.getPath n) ≠
            Path_getDepth (env.getPath ref) then
          some (false, [msgAncestor (env.getPath n) (env.getPath ref)])
        else
          firstFailM (ancStep env fuel n ref)
            (List.range (env.getNumChildren n)) := rfl
    rw [heq, if_neg (not_not_intro hpre),
      range_split i (env.getNumChildren n) hi]
    apply firstFailM_split
    · intro j hj; exact hprev j (List.mem_range.mp hj)
    · simp [ancStep, hfail]
  · intro env fuel n ref i h
    simp [ancStep, h, CheckerDT_ancestorTreeCheck]
  · intro env env' hp hn hc fuel
    obtain ⟨p1, pa1, n1, c1⟩ := env
    obtain ⟨p2, pa2, n2, c2⟩ := env'
    simp only at hp hn hc
    subst hp; subst hn; subst hc
    induction fuel with
    | zero => intro node ref; rfl
    | succ f ih =>
      intro node ref
      cases node with
      | none => rfl
      | some n =>
        show (if _ then _ else _) = (if _ then _ else _)
        by_cases hcond : Path_getSharedPrefixDepth (p1 ref) (p1 n) ≠
            Path_getDepth (p1 ref)
        · rw [if_pos hcond, if_pos hcond]
        · rw [if_neg hcond, if_neg hcond]
          have hstep : (fun i =>
              match c1 n i with
              | none => some (false, [msgMoreChildrenAnc])
              | some c =>
                CheckerDT_ancestorTreeCheck ⟨p1, pa1, n1, c1⟩ f c ref) =
              (fun i =>
              match c1 n i with
              | none => some (false, [msgMoreChildrenAnc])
              | some c =>
                CheckerDT_ancestorTreeCheck ⟨p1, pa2, n1, c1⟩ f c ref) := by
            funext i
            cases c1 n i with
            | none => rfl
            | some c => exact ih c ref
          rw [hstep]

/-- Witness for the amended C3 on the failed-retrieval branch. -/
theorem claim_C3_witness :
    CheckerDT_ancestorTreeCheck envClaim 2 (some 0) 0 =
      some (false, [msgMoreChildrenAnc]) :=
  claim_C3.1 envClaim 1 0 0 0 (by decide) (by decide)
    (by intro j hj; omega) (by decide)
